import Mathlib

/-!
Verification development for the two-pass assembler.

The definitions below are a shallow embedding of the assembler's C sources:
lexical helpers (utils.c, code.c), the symbol table (table.c), instruction
encoding and the object-file word packing (code.c, writefiles.c), the
first-pass extra-word construction (first_pass.c), the second pass
(second_pass.c), the `.string` directive (instructions.c) and the macro
pre-processor (macr.c).  C strings are modelled as `String`/`List Char`
(the NUL terminator is the end of the list), C `long` values as `Int`,
bit-field stores as reduction modulo the field width, and the linked-list
symbol table as a `List` whose head is the list head.  A C function that
can fail (report an error and return FALSE) is modelled with `Option`.
-/

namespace Assembler

/-! Section: Symbol table data model (table.h) -/

inductive symbol_type where
  | CODE_SYMBOL
  | DATA_SYMBOL
  | EXTERNAL_SYMBOL
  | EXTERNAL_REFERENCE
  | ENTRY_SYMBOL
deriving DecidableEq, Repr

open symbol_type

structure table_entry where
  key : String
  value : Int
  type : symbol_type
deriving DecidableEq, Repr

/-- The C `table` is a pointer to the first `table_entry`; `[]` is the NULL table. -/
abbrev table := List table_entry

/-! Section: Lexical helpers (utils.c, code.c) -/

def is_digit_char (c : Char) : Bool := '0' ≤ c && c ≤ '9'

def is_alpha_char (c : Char) : Bool := ('a' ≤ c && c ≤ 'z') || ('A' ≤ c && c ≤ 'Z')

/-- utils.c `is_int`: an optional sign followed by at least one digit. -/
def is_int_chars (cs : List Char) : Bool :=
  let body := match cs with
    | c :: t => if c = '-' || c = '+' then t else c :: t
    | [] => []
  (!body.isEmpty) && body.all is_digit_char

/-- utils.c `is_alphanumeric_str`. -/
def is_alphanumeric_str (cs : List Char) : Bool :=
  cs.all (fun c => is_alpha_char c || is_digit_char c)

/-- code.c lookup_table, with the opcode and funct enum values of globals.h:
MOV 0, CMP 1, ADD 2, SUB 3, LEA 4, CLR 5, NOT 6, INC 7, DEC 8, JMP 9,
BNE 10, RED 11, PRN 12, JSR 13, RTS 14, STOP 15. -/
def cmd_lookup_table : List (String × Int × Int) :=
  [("mov", 0, 0), ("cmp", 1, 0), ("add", 2, 1), ("sub", 3, 2),
   ("lea", 4, 0), ("clr", 5, 1), ("not", 6, 2), ("inc", 7, 3),
   ("dec", 8, 4), ("jmp", 9, 1), ("bne", 10, 2), ("jsr", 13, 3),
   ("red", 11, 0), ("prn", 12, 0), ("rts", 14, 0), ("stop", 15, 0)]

/-- code.c `get_opcode_func`; `(-1, 0)` is `(NONE_OP, NONE_FUNCT)`. -/
def get_opcode_func (cmd : String) : Int × Int :=
  match cmd_lookup_table.find? (fun e => e.1 == cmd) with
  | some e => e.2
  | none => (-1, 0)

/-- code.c `get_register_by_name`: `rN` with a single digit N, -1 when invalid. -/
def get_register_by_name_chars (cs : List Char) : Int :=
  match cs with
  | ['r', d] =>
      if is_digit_char d then
        let digit : Int := (d.toNat : Int) - 48
        if 0 ≤ digit && digit ≤ 7 then digit else -1
      else -1
  | _ => -1

def get_register_by_name (s : String) : Int := get_register_by_name_chars s.toList

/-- code.c `is_register_indirect_addr`: a `*` followed by a valid register name. -/
def is_register_indirect_addr_chars (cs : List Char) : Bool :=
  match cs with
  | '*' :: rest => get_register_by_name_chars rest != -1
  | _ => false

/-- utils.c `find_instruction_by_name(name) != NONE_INST`: whether `name` is one of
the directive names of the instructions lookup table. -/
def is_instruction_name (s : String) : Bool :=
  ["string", "data", "entry", "extern"].contains s

/-- utils.c `is_reserved_word`. -/
def is_reserved_word_chars (cs : List Char) : Bool :=
  ((get_opcode_func (String.mk cs)).1 != -1)
    || (get_register_by_name_chars cs != -1)
    || is_instruction_name (String.mk cs)
    || is_register_indirect_addr_chars cs

/-- utils.c `is_valid_label_name`. -/
def is_valid_label_name_chars (cs : List Char) : Bool :=
  match cs with
  | [] => false
  | c :: rest =>
      (cs.length ≤ 31) && is_alpha_char c && is_alphanumeric_str rest
        && !(is_reserved_word_chars cs)

/-- A token `rN` with N in 0..7 and nothing after it (the explicit character tests of
code.c `get_addressing_type`). -/
def reg_token_shape (cs : List Char) : Bool :=
  match cs with
  | ['r', d] => '0' ≤ d && d ≤ '7'
  | _ => false

/-- code.c `get_addressing_type`: 0 immediate, 1 direct, 2 register indirect,
3 register, -1 (`NONE_ADDR`) otherwise. -/
def get_addressing_type (operand : String) : Int :=
  match operand.toList with
  | [] => -1
  | c :: rest =>
      if c = '#' && is_int_chars rest then 0
      else if c = '*' && reg_token_shape rest then 2
      else if reg_token_shape (c :: rest) then 3
      else if is_valid_label_name_chars (c :: rest) then 1
      else -1

/-! Section: Symbol table operations (table.c) -/

/-- The walk of table.c `add_table_item` after the head: skip entries whose value
is strictly below the new value, insert before the first remaining entry. -/
def insert_rest (key : String) (value : Int) (ty : symbol_type) : table → table
  | [] => [⟨key, value, ty⟩]
  | c :: rest =>
      if c.value < value then c :: insert_rest key value ty rest
      else ⟨key, value, ty⟩ :: c :: rest

/-- table.c `add_table_item`: sorted insertion by value (prepend when the table is
empty or the head's value exceeds the new value). -/
def add_table_item (tab : table) (key : String) (value : Int) (ty : symbol_type) : table :=
  match tab with
  | [] => [⟨key, value, ty⟩]
  | h :: t =>
      if h.value > value then ⟨key, value, ty⟩ :: h :: t
      else h :: insert_rest key value ty t

/-- table.c `add_value_to_type`: adds `to_add` to every entry of type `ty` in place,
without moving any entry. -/
def add_value_to_type (tab : table) (to_add : Int) (ty : symbol_type) : table :=
  tab.map (fun e => if e.type = ty then ⟨e.key, e.value + to_add, e.type⟩ else e)

/-- table.c `find_by_types`: first entry (in list order) whose type is one of
`types` and whose key equals `key`. -/
def find_by_types (tab : table) (key : String) (types : List symbol_type) : Option table_entry :=
  tab.find? (fun e => decide (e.type ∈ types) && (e.key == key))

/-- table.c `filter_table_by_type`.  The C body is a do/while loop that reads
`tab->type` before any NULL test, so on an empty (NULL) table it dereferences a
null pointer; that undefined outcome is modelled as `none`.  On a non-empty
table every entry of type `ty` is re-inserted into a fresh table with
`add_table_item`. -/
def filter_table_by_type (tab : table) (ty : symbol_type) : Option table :=
  match tab with
  | [] => none
  | _ :: _ =>
      some (tab.foldl
        (fun acc e => if e.type = ty then add_table_item acc e.key e.value e.type else acc) [])

/-- Ascending order by `value` along the list, as required for output emission. -/
def table_sorted : table → Bool
  | [] => true
  | [_] => true
  | a :: b :: t => (decide (a.value ≤ b.value)) && table_sorted (b :: t)

/-! Section: Machine words (globals.h) and their builders (code.c) -/

/-- globals.h `data_word`: a 3-bit ARE field and an `unsigned long` payload.
Every builder stores a non-negative masked payload, so `Nat` suffices. -/
structure data_word where
  ARE : Nat
  data : Nat
deriving DecidableEq, Repr

/-- globals.h `code_word`, fields in declaration order.  Each field is an
unsigned bit field (ARE:3, funct:5, dest_register:3, dest_addressing:2,
src_register:3, src_addressing:2, opcode:6); stores reduce modulo the width. -/
structure code_word where
  ARE : Nat
  funct : Nat
  dest_register : Nat
  dest_addressing : Nat
  src_register : Nat
  src_addressing : Nat
  opcode : Nat
deriving DecidableEq, Repr

/-- globals.h `machine_word`: `code length w` is a code word whose `length`
field counts the slots of the whole instruction; a data/operand word has
length 0. -/
inductive machine_word where
  | code : Int → code_word → machine_word
  | data : data_word → machine_word
deriving DecidableEq, Repr

/-- The code image: `CODE_ARR_IMG_LENGTH` slots indexed by `IC - 100`;
`none` is a slot the first pass reserved for a direct operand. -/
abbrev code_image := List (Option machine_word)

/-- Storing a C integer `v` into an unsigned bit field of `w` bits: the low `w`
bits of the two's-complement representation, i.e. `v mod 2^w`. -/
def to_field (v : Int) (w : Nat) : Nat := (v % ((2 : Int) ^ w)).toNat

/-- The mask `value & 0xFFF` on a two's-complement `long`. -/
def mask12 (value : Int) : Nat := to_field value 12

/-- code.c `build_data_word_immediate`: `ARE = 4`, `data = value & 0xFFF`. -/
def build_data_word_immediate (value : Int) : data_word := ⟨4, mask12 value⟩

/-- code.c `build_data_word_register`: one parameter `reg`; `ARE = 4`,
`data = reg & 0xF`. -/
def build_data_word_register (r : Int) : data_word := ⟨4, to_field r 4⟩

/-- code.c `build_data_word_direct`: `ARE` is 1 for an external symbol and 4
otherwise, `data = value & 0xFFF`. -/
def build_data_word_direct (value : Int) (is_extern_symbol : Bool) : data_word :=
  ⟨if is_extern_symbol then 1 else 4, mask12 value⟩

/-- Models the shared extra word built by first_pass.c `build_extra_codeword_fpass`
for an instruction whose two operands are both register or register-indirect.
The source calls the one-parameter `build_data_word_register` with three
arguments `(op_addr1, reg1, FALSE)`, contradicting the prototype declared in
code.h; binding the arguments positionally, the single `reg` parameter receives
the addressing type `op_addr1` (and `reg1` is dropped).  The source then runs
`dw->data |= (reg2 << 6)`. -/
def build_extra_two_reg (op_addr1 : Int) (reg2 : Nat) : data_word :=
  let dw := build_data_word_register op_addr1
  ⟨dw.ARE, dw.data ||| (reg2 <<< 6)⟩

/-! Section: Operand validation and code-word construction (code.c) -/

/-- code.c `validate_op_addr`: each operand's addressing must be listed among the
valid modes passed for it; an operand with no valid modes must be `NONE_ADDR`. -/
def validate_op_addr (op1_addressing op2_addressing : Int)
    (op1_valids op2_valids : List Int) : Bool :=
  ((op1_valids.isEmpty && (op1_addressing == -1)) || op1_valids.contains op1_addressing)
    && ((op2_valids.isEmpty && (op2_addressing == -1)) || op2_valids.contains op2_addressing)

/-- code.c `validate_operand_by_opcode`, with the valid-mode lists exactly as the
variadic calls pass them. -/
def validate_operand_by_opcode (first_addressing second_addressing : Int)
    (curr_opcode : Int) (op_count : Nat) : Bool :=
  if 0 ≤ curr_opcode && curr_opcode ≤ 4 then
    if op_count ≠ 2 then false
    else if curr_opcode = 1 then
      validate_op_addr first_addressing second_addressing [0, 1, 2, 3] [0, 1, 3, 2]
    else if curr_opcode = 2 || curr_opcode = 0 then
      if first_addressing == -1 || second_addressing == -1 then false
      else validate_op_addr first_addressing second_addressing [0, 1, 2, 3] [1, 3, 2]
    else if curr_opcode = 4 then
      validate_op_addr first_addressing second_addressing [1, 2] [1, 3, 2]
    else if curr_opcode = 3 then
      validate_op_addr first_addressing second_addressing [0, 1, 2, 3] [1, 2, 3]
    else true
  else if 5 ≤ curr_opcode && curr_opcode ≤ 13 then
    if op_count ≠ 1 then false
    else if curr_opcode = 11 || curr_opcode = 5 || curr_opcode = 6
        || curr_opcode = 7 || curr_opcode = 8 then
      validate_op_addr first_addressing (-1) [1, 3, 2] []
    else if curr_opcode = 9 || curr_opcode = 10 || curr_opcode = 13 then
      validate_op_addr first_addressing (-1) [1, 2] []
    else
      validate_op_addr first_addressing (-1) [0, 1, 3, 2] []
  else if curr_opcode = 15 || curr_opcode = 14 then
    if op_count > 0 then false else true
  else true

/-- code.c `get_code_word`: validates the operands and fills the bit fields.
Register fields are set only for `REGISTER_ADDR` (3) operands; `NONE_ADDR` (-1)
stored into the 2-bit addressing fields becomes 3. -/
def get_code_word (curr_opcode curr_funct : Int) (operands : List String) :
    Option code_word :=
  let op_count := operands.length
  let first_addressing : Int :=
    if 1 ≤ op_count then get_addressing_type (operands.getD 0 "") else -1
  let second_addressing : Int :=
    if op_count = 2 then get_addressing_type (operands.getD 1 "") else -1
  if validate_operand_by_opcode first_addressing second_addressing curr_opcode op_count then
    some ⟨4, to_field curr_funct 5,
      (if second_addressing = 3 then to_field (get_register_by_name (operands.getD 1 "")) 3 else 0),
      to_field second_addressing 2,
      (if first_addressing = 3 then to_field (get_register_by_name (operands.getD 0 "")) 3 else 0),
      to_field first_addressing 2,
      to_field curr_opcode 6⟩
  else none

/-! Section: Object-file word packing (writefiles.c `write_ob`) -/

/-- writefiles.c `KEEP_ONLY_15_LSB`. -/
def KEEP_ONLY_15_LSB (v : Nat) : Nat := v % 32768

/-- writefiles.c `write_ob`, code-word case: the value written for a slot whose
machine word has `length > 0`.  No 15-bit mask is applied on this path. -/
def pack_code_word (c : code_word) : Nat :=
  (c.opcode <<< 10) ||| (c.src_addressing <<< 8) ||| (c.src_register <<< 6)
    ||| (c.dest_addressing <<< 3) ||| c.dest_register ||| (c.funct <<< 3) ||| c.ARE

/-- writefiles.c `write_ob`, data-word case: the 15-bit mask is applied to the
payload before the shift by 3, not to the final value. -/
def pack_data_word (d : data_word) : Nat :=
  (KEEP_ONLY_15_LSB d.data <<< 3) ||| d.ARE

/-- Modelled from the words of claim C2 (spec §4.4): ARE at bits 0-2,
dest_register at bits 3-5, funct at bits 3-7, dest_addressing at bits 6-7,
src_register at bits 8-10, src_addressing at bits 11-12, opcode from bit 13,
and the final value masked to the low 15 bits. -/
def spec_pack_code_word (c : code_word) : Nat :=
  KEEP_ONLY_15_LSB
    (c.ARE ||| (c.dest_register <<< 3) ||| (c.funct <<< 3) ||| (c.dest_addressing <<< 6)
      ||| (c.src_register <<< 8) ||| (c.src_addressing <<< 11) ||| (c.opcode <<< 13))

/-- The layout `write_ob` actually produces, written position by position:
ARE and dest_register share bits 0-2, funct (bits 3-7) overlaps dest_addressing
(bits 3-4), src_register sits at bits 6-8, src_addressing at bits 8-9 and
opcode from bit 10; no 15-bit mask is applied. -/
def amended_pack_code_word (c : code_word) : Nat :=
  c.ARE ||| c.dest_register ||| (c.dest_addressing <<< 3) ||| (c.funct <<< 3)
    ||| (c.src_register <<< 6) ||| (c.src_addressing <<< 8) ||| (c.opcode <<< 10)

/-! Section: Second pass (second_pass.c) -/

/-- second_pass.c `process_direct_operand`: resolve `operand` among the DATA,
CODE and EXTERNAL symbols; on failure report and return FALSE (`none`).  On
success, when the symbol is EXTERNAL an `EXTERNAL_REFERENCE` entry is added
with value `curr_ic + 1`, and slot `curr_ic - 100` of the code image receives a
fresh length-0 word built by `build_data_word_direct`. -/
def process_direct_operand (tab : table) (curr_ic : Nat) (operand : String)
    (code_img : code_image) : Option (code_image × table) :=
  match find_by_types tab operand [DATA_SYMBOL, CODE_SYMBOL, EXTERNAL_SYMBOL] with
  | none => none
  | some entry =>
      let tab2 :=
        if entry.type = EXTERNAL_SYMBOL then
          add_table_item tab operand ((curr_ic : Int) + 1) EXTERNAL_REFERENCE
        else tab
      let w := machine_word.data
        (build_data_word_direct entry.value (decide (entry.type = EXTERNAL_SYMBOL)))
      some (code_img.set (curr_ic - 100) (some w), tab2)

/-- second_pass.c `process_spass_operand`.  The caller passes the same counter
for `curr_ic` and `ic`, so a single counter is threaded here.  The C function
always returns TRUE and ignores the return value of `process_direct_operand`,
so a failed direct resolution leaves the image and table unchanged. -/
def process_spass_operand (ic : Nat) (operand1 : String) (operand2 : Option String)
    (code_img : code_image) (tab : table) : Nat × code_image × table :=
  let addr1 := get_addressing_type operand1
  let addr2 : Int := match operand2 with
    | some s => get_addressing_type s
    | none => -1
  if (addr1 = 2 || addr1 = 3) && (addr2 = 2 || addr2 = 3) then
    (ic + 1, code_img, tab)
  else
    let ic1 := if addr1 = 2 || addr1 = 3 then ic + 1 else ic
    let ic2 := if addr1 = 0 then ic1 + 1 else ic1
    let s1 : Nat × code_image × table :=
      if addr1 = 1 then
        match process_direct_operand tab (ic2 + 1) operand1 code_img with
        | some (img2, tab2) => (ic2 + 1, img2, tab2)
        | none => (ic2 + 1, code_img, tab)
      else (ic2, code_img, tab)
    match operand2 with
    | none => s1
    | some op2 =>
        let ic3 := s1.1
        let img3 := s1.2.1
        let tab3 := s1.2.2
        let ic4 := if addr2 = 2 || addr2 = 3 || addr2 = 0 then ic3 + 1 else ic3
        if addr2 = 1 then
          match process_direct_operand tab3 (ic4 + 1) op2 img3 with
          | some (img5, tab5) => (ic4 + 1, img5, tab5)
          | none => (ic4 + 1, img3, tab3)
        else (ic4, img3, tab3)

/-- The `.entry` branch of second_pass.c `process_line_spass`, given the parsed
argument token `name`: if `name` already has an `ENTRY_SYMBOL` entry the line
succeeds with no change; otherwise `name` must resolve as DATA or CODE, and a
new `ENTRY_SYMBOL` entry with that entry's value is inserted.  When it resolves
as neither, the line fails (the EXTERNAL lookup in the source only selects
which error message is printed). -/
def process_entry_spass (tab : table) (name : String) : Bool × table :=
  if (find_by_types tab name [ENTRY_SYMBOL]).isSome then (true, tab)
  else
    match find_by_types tab name [DATA_SYMBOL, CODE_SYMBOL] with
    | some entry => (true, add_table_item tab name entry.value ENTRY_SYMBOL)
    | none => (false, tab)

/-! Section: The `.string` directive (instructions.c) -/

/-- The double-quote character. -/
def qchar : Char := Char.ofNat 34

def is_blank (c : Char) : Bool := c == ' ' || c == '\t'

def has_quote (cs : List Char) : Bool := cs.any (fun c => c == qchar)

/-- The copy loop of instructions.c `process_string_instruction`: starting after
the opening quote, every character up to the end of the line (the NUL
terminator, modelled as the end of the list, or a newline) is appended to the
data image, incrementing DC once per character.  The C data image is an array
written at index `dc`; appending to the list models exactly that. -/
def string_copy_loop (cs : List Char) (data_img : List Int) : List Int :=
  match cs with
  | [] => data_img
  | c :: rest =>
      if c == '\n' then data_img
      else string_copy_loop rest (data_img ++ [(c.toNat : Int)])

/-- instructions.c `process_string_instruction`: skip blanks from `index`; the
first character must be a double quote (else "Missing opening quote"); if that
quote is the last quote of the whole line — `&line.content[index]` equals
`strrchr(line.content, '"')`, i.e. no quote follows it — the closing quote is
missing; otherwise run the copy loop on everything after the opening quote. -/
def process_string_instruction (content : List Char) (index : Nat)
    (data_img : List Int) : Option (List Int) :=
  match (content.drop index).dropWhile is_blank with
  | [] => none
  | c :: after =>
      if c == qchar then
        if has_quote after then some (string_copy_loop after data_img)
        else none
      else none

/-! Section: Macro pre-processor (macr.c) -/

/-- The effect of `sscanf(line, "%s", firstWord)`: the first whitespace-delimited token. -/
def first_word (s : String) : String :=
  String.mk (((s.toList).dropWhile (fun c => c == ' ' || c == '\t' || c == '\n')).takeWhile
    (fun c => !(c == ' ' || c == '\t' || c == '\n')))

def macr_pat : List Char := 'm' :: 'a' :: 'c' :: 'r' :: [' ']

def endmacr_pat : List Char := ['e', 'n', 'd', 'm', 'a', 'c', 'r']

/-- The test `strstr(line, pat) == line`: `pat` is a prefix of `line`. -/
def starts_with (pat cs : List Char) : Bool :=
  match pat, cs with
  | [], _ => true
  | _ :: _, [] => false
  | p :: ps, c :: rest => p == c && starts_with ps rest

/-- The test `strstr(line, pat) != NULL`: `pat` occurs somewhere in `line`. -/
def contains_pat (pat : List Char) : List Char → Bool
  | [] => pat.isEmpty
  | c :: rest => starts_with pat (c :: rest) || contains_pat pat rest

/-- macr.c `find_macro`: the hash chains append new nodes at the end of their
bucket and the lookup returns the first node whose stored name matches, so the
earliest definition with a given name wins. -/
def lookup_first : List (String × List String) → String → Option (List String)
  | [], _ => none
  | (n, b) :: rest, name => if n == name then some b else lookup_first rest name

/-- Appending a body line to the macro being defined (`currentMacro->lines`):
dropped with a diagnostic once the body holds `SIZE_LINE` = 82 lines. -/
def append_to_body (defs : List (String × List String)) (idx : Nat) (line : String) :
    List (String × List String) :=
  match defs.get? idx with
  | some (n, b) => if b.length < 82 then defs.set idx (n, b ++ [line]) else defs
  | none => defs

/-- The expander state: the macro store in definition order, and the index of
the macro currently being defined (`isMacroOpen` / `currentMacro`). -/
structure MacrState where
  defs : List (String × List String)
  openIdx : Option Nat
deriving Repr

/-- One iteration of the line loop of macr.c `macro`, returning the new state
and the lines written to the `.am` output for this input line.  The checks are
in source order: a line that begins with the five characters of `"macr "`
starts a definition (even inside a body); otherwise a line containing
`"endmacr"` anywhere closes the body and is consumed; otherwise a body line is
stored; otherwise the line is either replaced by a macro body or copied. -/
def macr_step (st : MacrState) (line : String) : MacrState × List String :=
  if starts_with macr_pat line.toList then
    let name := first_word (String.mk (line.toList.drop 5))
    (⟨st.defs ++ [(name, [])], some st.defs.length⟩, [])
  else if contains_pat endmacr_pat line.toList then
    (⟨st.defs, none⟩, [])
  else
    match st.openIdx with
    | some idx => (⟨append_to_body st.defs idx line, some idx⟩, [])
    | none =>
        match lookup_first st.defs (first_word line) with
        | some body => (st, body)
        | none => (st, [line])

/-- Running the whole line loop of macr.c `macro` over the input lines,
collecting the `.am` output. -/
def macr_run (st : MacrState) : List String → List String
  | [] => []
  | l :: ls =>
      let r := macr_step st l
      r.2 ++ macr_run r.1 ls

/-- The pre-processor on a fresh state (empty hash table, outside any body). -/
def macr_expand (lines : List String) : List String := macr_run ⟨[], none⟩ lines

/-! Section: Output writing (writefiles.c `write_output_files`) -/

/-- The symbol-table part of writefiles.c `write_output_files`: it calls
`filter_table_by_type` unconditionally for `EXTERNAL_REFERENCE` and then for
`ENTRY_SYMBOL` before writing the `.ext` and `.ent` files; `none` models the
null-pointer dereference inside the filter on an empty table. -/
def write_output_files_tables (symbol_table : table) : Option (table × table) :=
  match filter_table_by_type symbol_table EXTERNAL_REFERENCE with
  | none => none
  | some externals =>
      match filter_table_by_type symbol_table ENTRY_SYMBOL with
      | none => none
      | some entries => some (externals, entries)

/-! Section: Helper lemmas -/

theorem lor_left_comm (a b c : Nat) : a ||| (b ||| c) = b ||| (a ||| c) := by
  rw [← Nat.lor_assoc, Nat.lor_comm a b, Nat.lor_assoc]

/-- The copy loop of `.string` appends exactly the characters up to the first
newline (or the end of the line), one data value per character. -/
theorem string_copy_loop_spec (cs : List Char) (img : List Int) :
    string_copy_loop cs img
      = img ++ (cs.takeWhile (fun ch => ch != '\n')).map (fun ch => (ch.toNat : Int)) := by
  induction cs generalizing img with
  | nil => simp [string_copy_loop]
  | cons c rest ih =>
      by_cases h : c = '\n'
      · simp [string_copy_loop, h, List.takeWhile_cons]
      · simp [string_copy_loop, h, List.takeWhile_cons, ih]

/-- The post-head walk of `add_table_item` keeps the table sorted when the
boundary entry `h` sorts no later than the inserted value. -/
theorem insert_rest_keeps_sorted (k : String) (v : Int) (ty : symbol_type) :
    ∀ (t : table) (h : table_entry), table_sorted (h :: t) = true → h.value ≤ v →
      table_sorted (h :: insert_rest k v ty t) = true := by
  intro t
  induction t with
  | nil =>
      intro h _ hle
      simp [insert_rest, table_sorted, hle]
  | cons c rest ih =>
      intro h hsort hle
      simp only [table_sorted, Bool.and_eq_true, decide_eq_true_eq] at hsort
      by_cases hc : c.value < v
      · have hrec := ih c hsort.2 (le_of_lt hc)
        simp only [insert_rest, hc, if_true]
        simp only [table_sorted, Bool.and_eq_true, decide_eq_true_eq]
        exact ⟨hsort.1, by simpa [table_sorted] using hrec⟩
      · simp only [insert_rest, hc, if_false]
        simp only [table_sorted, Bool.and_eq_true, decide_eq_true_eq]
        refine ⟨hle, le_of_not_lt hc, ?_⟩
        simpa [table_sorted, Bool.and_eq_true] using hsort.2

/-- Sorted insertion of table.c `add_table_item` preserves ascending order. -/
theorem add_table_item_keeps_sorted (tab : table) (k : String) (v : Int)
    (ty : symbol_type) (h : table_sorted tab = true) :
    table_sorted (add_table_item tab k v ty) = true := by
  cases tab with
  | nil => simp [add_table_item, table_sorted]
  | cons hd t =>
      by_cases hv : hd.value > v
      · simp only [add_table_item, hv, if_true]
        simp only [table_sorted, Bool.and_eq_true, decide_eq_true_eq]
        exact ⟨le_of_lt hv, by simpa [table_sorted, Bool.and_eq_true] using h⟩
      · simp only [add_table_item, hv, if_false]
        exact insert_rest_keeps_sorted k v ty t hd h (le_of_not_lt hv)

/-- The rebuild loop of `filter_table_by_type` only ever inserts with
`add_table_item`, so it turns any sorted accumulator into a sorted table. -/
theorem foldl_filter_keeps_sorted (ty : symbol_type) :
    ∀ (l : table) (acc : table), table_sorted acc = true →
      table_sorted (l.foldl
        (fun acc e => if e.type = ty then add_table_item acc e.key e.value e.type else acc)
        acc) = true := by
  intro l
  induction l with
  | nil => intro acc h; simpa using h
  | cons e rest ih =>
      intro acc h
      simp only [List.foldl_cons]
      by_cases he : e.type = ty
      · rw [if_pos he]
        exact ih _ (add_table_item_keeps_sorted acc e.key e.value e.type h)
      · rw [if_neg he]
        exact ih _ h

/-! Section: Claim C1 -/

/-- C1 (counterexample): in the program `mov r1, X` / `stop` / `X: .data 7`,
after rebasing, `X` is a DATA symbol with value ICF = 103.  Resolving the
placeholder at address 101 in the second pass stores a data word whose ARE
field is 4, not 2 as the claim states. -/
theorem C1_counterexample :
    process_direct_operand [⟨"X", 103, symbol_type.DATA_SYMBOL⟩] 101 "X" [none, none, none]
      = some ([none, some (machine_word.data ⟨4, 103⟩), none],
              [⟨"X", 103, symbol_type.DATA_SYMBOL⟩])
    ∧ (4 : Nat) ≠ 2 := by
  exact ⟨by decide, by decide⟩

/-- C1 (amended): a placeholder left for a direct operand whose symbol resolves
as DATA or CODE is patched to a length-0 data word whose payload is the
symbol's value masked to 12 bits and whose ARE field is 4 (absolute), and the
symbol table is left unchanged. -/
theorem C1_amended (tab : table) (curr_ic : Nat) (operand : String)
    (code_img : code_image) (entry : table_entry)
    (hfind : find_by_types tab operand
      [symbol_type.DATA_SYMBOL, symbol_type.CODE_SYMBOL, symbol_type.EXTERNAL_SYMBOL]
        = some entry)
    (hkind : entry.type = symbol_type.DATA_SYMBOL ∨ entry.type = symbol_type.CODE_SYMBOL) :
    process_direct_operand tab curr_ic operand code_img
      = some (code_img.set (curr_ic - 100)
          (some (machine_word.data ⟨4, mask12 entry.value⟩)), tab) := by
  have hne : ¬ entry.type = symbol_type.EXTERNAL_SYMBOL := by
    rcases hkind with h | h <;> simp [h]
  simp [process_direct_operand, hfind, hne, build_data_word_direct]

/-- C1 (witness): the amended statement at the concrete rebased table of the
example program. -/
theorem C1_amended_witness :
    process_direct_operand [⟨"X", 103, symbol_type.DATA_SYMBOL⟩] 101 "X" [none, none, none]
      = some (([none, none, none] : code_image).set 1
          (some (machine_word.data ⟨4, mask12 103⟩)), [⟨"X", 103, symbol_type.DATA_SYMBOL⟩]) :=
  C1_amended [⟨"X", 103, symbol_type.DATA_SYMBOL⟩] 101 "X" [none, none, none]
    ⟨"X", 103, symbol_type.DATA_SYMBOL⟩ (by decide) (Or.inl rfl)

/-! Section: Claim C2 -/

/-- The code word the first pass builds for `mov #-5, r3`. -/
def cw_mov_example : code_word := ⟨4, 0, 3, 3, 0, 0, 0⟩

/-- C2 (counterexample): for the code word of `mov #-5, r3` (reachable via
`get_code_word`), the value `write_ob` emits is 31, while the claimed field
layout (ARE 0-2, dest_register 3-5, dest_addressing 6-7, src_register 8-10,
src_addressing 11-12, opcode from 13, masked to 15 bits) yields 220. -/
theorem C2_counterexample :
    get_code_word 0 0 ["#-5", "r3"] = some cw_mov_example
    ∧ pack_code_word cw_mov_example = 31
    ∧ spec_pack_code_word cw_mov_example = 220
    ∧ pack_code_word cw_mov_example ≠ spec_pack_code_word cw_mov_example := by
  exact ⟨by decide, by decide, by decide, by decide⟩

/-- C2 (amended): the value `write_ob` emits for a code word places ARE and
dest_register together at bits 0-2, dest_addressing at bits 3-4 overlapping
funct at bits 3-7, src_register at bits 6-8, src_addressing at bits 8-9 and
opcode from bit 10, with no 15-bit mask applied on the code-word path. -/
theorem C2_amended (c : code_word) : pack_code_word c = amended_pack_code_word c := by
  simp only [pack_code_word, amended_pack_code_word]
  simp only [Nat.lor_comm, Nat.lor_assoc, lor_left_comm]

/-! Section: Claim C3 -/

/-- C3: the assembler's mnemonic table gives `sub` the pair (3, 2), `not`
(6, 2), `inc` (7, 3), `dec` (8, 4), `bne` (10, 2) and `jsr` (13, 3) — not the
claimed opcodes 2 for `sub` and 9 for `bne`/`jsr` (the opcode groups that the
funct enum's own comments in globals.h document). -/
theorem C3_eval :
    get_opcode_func "sub" = (3, 2)
    ∧ get_opcode_func "not" = (6, 2)
    ∧ get_opcode_func "inc" = (7, 3)
    ∧ get_opcode_func "dec" = (8, 4)
    ∧ get_opcode_func "jmp" = (9, 1)
    ∧ get_opcode_func "bne" = (10, 2)
    ∧ get_opcode_func "jsr" = (13, 3)
    ∧ get_opcode_func "sub" ≠ (2, 2)
    ∧ get_opcode_func "bne" ≠ (9, 2)
    ∧ get_opcode_func "jsr" ≠ (9, 3) := by
  decide

/-! Section: Claim C4 -/

/-- The symbol table after the first pass of `.extern K` / `jmp K` / `stop`. -/
def tab_K : table := [⟨"K", 0, symbol_type.EXTERNAL_SYMBOL⟩]

/-- The code image after that first pass: the `jmp` code word (length 2) at
address 100, the reserved slot for `K` at 101, the `stop` word at 102. -/
def img_jmp : code_image :=
  [Option.map (machine_word.code 2) (get_code_word 9 1 ["K"]), none,
   Option.map (machine_word.code 1) (get_code_word 15 0 [])]

/-- C4: resolving `jmp K` in the second pass at IC = 100 writes the operand
word at address 101 with payload 0 and ARE = 1 as claimed, but the
`EXTERNAL_REFERENCE` entry receives value 102 — the operand word's address
plus one — so the `.ext` line reads `K 0000102`, not `K 0000101`. -/
theorem C4_eval :
    process_spass_operand 100 "K" none img_jmp tab_K
      = (101, img_jmp.set 1 (some (machine_word.data ⟨1, 0⟩)),
         [⟨"K", 0, symbol_type.EXTERNAL_SYMBOL⟩,
          ⟨"K", 102, symbol_type.EXTERNAL_REFERENCE⟩])
    ∧ filter_table_by_type
        [⟨"K", 0, symbol_type.EXTERNAL_SYMBOL⟩, ⟨"K", 102, symbol_type.EXTERNAL_REFERENCE⟩]
        symbol_type.EXTERNAL_REFERENCE
        = some [⟨"K", 102, symbol_type.EXTERNAL_REFERENCE⟩]
    ∧ (102 : Int) ≠ 101 := by
  exact ⟨by decide, by decide, by decide⟩

/-! Section: Claim C5 -/

/-- C5: for `add r2, r5` the shared extra word actually built carries payload
323 = (3 & 0xF) | (5 << 6): the addressing type 3 of the source operand lands
in bits 0-3 and the source register 2 is dropped, instead of the claimed
payload (2 << 3) | (5 << 6) = 336 with the source register at bits 3-5. -/
theorem C5_eval :
    build_extra_two_reg 3 5 = ⟨4, 323⟩
    ∧ ((2 <<< 3) ||| (5 <<< 6) : Nat) = 336
    ∧ (323 : Nat) ≠ 336
    ∧ ((323 >>> 3) % 8 : Nat) = 0 := by
  decide

/-! Section: Claim C6 -/

/-- The expanded-source line `.string "ab"`. -/
def c6_line : List Char := (".string ".toList) ++ [qchar, 'a', 'b', qchar, '\n']

/-- C6 (counterexample): processing `.string "ab"` appends 97, 98, 34 — the
characters `a`, `b` and the closing quote — with no terminating 0, not the
claimed 97, 98, 0. -/
theorem C6_counterexample :
    process_string_instruction c6_line 7 [] = some [97, 98, 34]
    ∧ ([97, 98, 34] : List Int) ≠ [97, 98, 0] := by
  exact ⟨by decide, by decide⟩

/-- C6 (amended): when the first non-blank character is a double quote and a
further quote follows it, `.string` succeeds and appends one value per
character from the character after the opening quote up to the end of the
line — including the closing quote and anything after it — with no terminating
0, incrementing DC once per appended value; when the remainder is empty or
starts with a non-quote character the opening quote is missing and the line
fails, and when no quote follows the opening one the closing quote is missing
and the line fails. -/
theorem C6_amended :
    (∀ (content : List Char) (index : Nat) (img : List Int) (after : List Char),
      (content.drop index).dropWhile is_blank = qchar :: after →
      has_quote after = true →
      process_string_instruction content index img
        = some (img ++ (after.takeWhile (fun ch => ch != '\n')).map
            (fun ch => (ch.toNat : Int))))
    ∧ (∀ (content : List Char) (index : Nat) (img : List Int),
      (content.drop index).dropWhile is_blank = [] →
      process_string_instruction content index img = none)
    ∧ (∀ (content : List Char) (index : Nat) (img : List Int) (c : Char) (after : List Char),
      (content.drop index).dropWhile is_blank = c :: after →
      (c == qchar) = false →
      process_string_instruction content index img = none)
    ∧ (∀ (content : List Char) (index : Nat) (img : List Int) (after : List Char),
      (content.drop index).dropWhile is_blank = qchar :: after →
      has_quote after = false →
      process_string_instruction content index img = none) := by
  refine ⟨?_, ?_, ?_, ?_⟩
  · intro content index img after hdrop hq
    simp [process_string_instruction, hdrop, hq, string_copy_loop_spec]
  · intro content index img hdrop
    simp [process_string_instruction, hdrop]
  · intro content index img c after hdrop hc
    simp [process_string_instruction, hdrop, hc]
  · intro content index img after hdrop hq
    simp [process_string_instruction, hdrop, hq]

/-- The expanded-source line `.string "x"`. -/
def c6_line2 : List Char := (".string ".toList) ++ [qchar, 'x', qchar, '\n']

/-- C6 (witness): the amended success case at the concrete line
`.string "x"`: the stored values are 120 (`x`) and 34 (the closing quote). -/
theorem C6_amended_witness :
    process_string_instruction c6_line2 7 [] = some [120, 34] := by
  have h := C6_amended.1 c6_line2 7 [] ['x', qchar, '\n'] (by decide) (by decide)
  simpa using h

/-! Section: Claim C7 -/

/-- A table in which `X` is already promoted: a CODE entry and an ENTRY entry,
as left by a first `.entry X` line. -/
def tab_entry_dup : table :=
  [⟨"X", 100, symbol_type.CODE_SYMBOL⟩, ⟨"X", 100, symbol_type.ENTRY_SYMBOL⟩]

/-- A table in which `X` is both EXTERNAL (value 0) and DATA (value 108), as
left by `.extern X` together with `X: .data …`. -/
def tab_ext_data : table :=
  [⟨"X", 0, symbol_type.EXTERNAL_SYMBOL⟩, ⟨"X", 108, symbol_type.DATA_SYMBOL⟩]

/-- C7 (counterexample): a second `.entry X` line succeeds while inserting no
additional ENTRY entry, contradicting "on success exactly one additional ENTRY
entry … is inserted"; and `.entry X` succeeds even though `X` exists as
EXTERNAL when a DATA entry for `X` also exists, contradicting "must not exist
as EXTERNAL". -/
theorem C7_counterexample :
    process_entry_spass tab_entry_dup "X" = (true, tab_entry_dup)
    ∧ (process_entry_spass tab_ext_data "X").1 = true
    ∧ find_by_types tab_ext_data "X" [symbol_type.EXTERNAL_SYMBOL]
        = some ⟨"X", 0, symbol_type.EXTERNAL_SYMBOL⟩ := by
  exact ⟨by decide, by decide, by decide⟩

/-- C7 (amended): a second-pass `.entry` line succeeds iff its argument already
has an ENTRY entry (in which case nothing is inserted) or resolves as DATA or
CODE (in which case exactly one ENTRY entry with that entry's value is
inserted); when it resolves as neither — whether EXTERNAL or undefined — the
line fails and the table is unchanged.  An EXTERNAL entry does not block
success when a DATA or CODE entry with the same name exists. -/
theorem C7_amended :
    ∀ (tab : table) (name : String),
      (((process_entry_spass tab name).1 = true) ↔
        ((find_by_types tab name [symbol_type.ENTRY_SYMBOL]).isSome
          ∨ (find_by_types tab name
              [symbol_type.DATA_SYMBOL, symbol_type.CODE_SYMBOL]).isSome))
      ∧ ((find_by_types tab name [symbol_type.ENTRY_SYMBOL]).isSome →
          process_entry_spass tab name = (true, tab))
      ∧ (∀ e : table_entry,
          find_by_types tab name [symbol_type.ENTRY_SYMBOL] = none →
          find_by_types tab name [symbol_type.DATA_SYMBOL, symbol_type.CODE_SYMBOL]
            = some e →
          process_entry_spass tab name
            = (true, add_table_item tab name e.value symbol_type.ENTRY_SYMBOL))
      ∧ (find_by_types tab name [symbol_type.ENTRY_SYMBOL] = none →
          find_by_types tab name [symbol_type.DATA_SYMBOL, symbol_type.CODE_SYMBOL]
            = none →
          process_entry_spass tab name = (false, tab)) := by
  intro tab name
  by_cases h1 : (find_by_types tab name [symbol_type.ENTRY_SYMBOL]).isSome
  · refine ⟨?_, ?_, ?_, ?_⟩
    · simp [process_entry_spass, h1]
    · intro _; simp [process_entry_spass, h1]
    · intro e hnone _
      rw [hnone] at h1; simp at h1
    · intro hnone _
      rw [hnone] at h1; simp at h1
  · cases h2 : find_by_types tab name [symbol_type.DATA_SYMBOL, symbol_type.CODE_SYMBOL] with
    | none =>
        refine ⟨?_, ?_, ?_, ?_⟩
        · simp [process_entry_spass, h1, h2]
        · intro hs; exact absurd hs h1
        · intro e _ hsome
          exact Option.noConfusion hsome
        · intro _ _; simp [process_entry_spass, h1, h2]
    | some e =>
        refine ⟨?_, ?_, ?_, ?_⟩
        · simp [process_entry_spass, h1, h2]
        · intro hs; exact absurd hs h1
        · intro e2 _ hsome
          have he : e = e2 := Option.some.inj hsome
          subst he
          simp [process_entry_spass, h1, h2]
        · intro _ hnone
          exact Option.noConfusion hnone

/-- C7 (witness): the amended insertion case at a concrete one-entry table. -/
theorem C7_amended_witness :
    process_entry_spass [⟨"Y", 100, symbol_type.CODE_SYMBOL⟩] "Y"
      = (true, add_table_item [⟨"Y", 100, symbol_type.CODE_SYMBOL⟩] "Y" 100
          symbol_type.ENTRY_SYMBOL) :=
  (C7_amended [⟨"Y", 100, symbol_type.CODE_SYMBOL⟩] "Y").2.2.1
    ⟨"Y", 100, symbol_type.CODE_SYMBOL⟩ (by decide) (by decide)

/-! Section: Claim C8 -/

/-- C8 (counterexample): the table holding `X` as DATA at 0 and `L` as CODE at
102 is ascending, but after the end-of-first-pass rebasing adds ICF = 103 to
every DATA value it is no longer ascending (103 precedes 102). -/
theorem C8_counterexample :
    table_sorted [⟨"X", 0, symbol_type.DATA_SYMBOL⟩, ⟨"L", 102, symbol_type.CODE_SYMBOL⟩]
      = true
    ∧ table_sorted (add_value_to_type
        [⟨"X", 0, symbol_type.DATA_SYMBOL⟩, ⟨"L", 102, symbol_type.CODE_SYMBOL⟩]
        103 symbol_type.DATA_SYMBOL) = false := by
  exact ⟨by decide, by decide⟩

/-- C8 (amended): insertion with `add_table_item` preserves ascending order by
value, but the rebasing `add_value_to_type` does not preserve it in general;
the `.ext`/`.ent` output iteration is nevertheless ascending because
`filter_table_by_type` rebuilds its (non-empty) result with sorted
insertion. -/
theorem C8_amended :
    (∀ (tab : table) (k : String) (v : Int) (ty : symbol_type),
        table_sorted tab = true → table_sorted (add_table_item tab k v ty) = true)
    ∧ (∀ (tab res : table) (ty : symbol_type),
        filter_table_by_type tab ty = some res → table_sorted res = true) := by
  refine ⟨fun tab k v ty h => add_table_item_keeps_sorted tab k v ty h, ?_⟩
  intro tab res ty hfil
  cases tab with
  | nil => simp [filter_table_by_type] at hfil
  | cons e t =>
      simp only [filter_table_by_type, Option.some.injEq] at hfil
      rw [← hfil]
      exact foldl_filter_keeps_sorted ty (e :: t) [] rfl

/-- C8 (witness): both amended parts at concrete tables. -/
theorem C8_amended_witness :
    table_sorted (add_table_item
      [⟨"A", 1, symbol_type.CODE_SYMBOL⟩, ⟨"B", 5, symbol_type.DATA_SYMBOL⟩]
      "C" 3 symbol_type.DATA_SYMBOL) = true
    ∧ table_sorted [⟨"K", 102, symbol_type.EXTERNAL_REFERENCE⟩] = true :=
  ⟨C8_amended.1 [⟨"A", 1, symbol_type.CODE_SYMBOL⟩, ⟨"B", 5, symbol_type.DATA_SYMBOL⟩]
      "C" 3 symbol_type.DATA_SYMBOL (by decide),
   C8_amended.2 [⟨"A", 1, symbol_type.CODE_SYMBOL⟩, ⟨"K", 102, symbol_type.EXTERNAL_REFERENCE⟩]
      [⟨"K", 102, symbol_type.EXTERNAL_REFERENCE⟩] symbol_type.EXTERNAL_REFERENCE (by decide)⟩

/-! Section: Claim C9 -/

/-- C9 (counterexample): the outside line `endmacrX: .data 5` — whose first
whitespace-delimited token `endmacrX:` names no macro — is consumed without
output by the pre-processor because it contains the substring `endmacr`,
instead of being emitted unchanged as the claim states. -/
theorem C9_counterexample :
    macr_expand ["endmacrX: .data 5\n"] = []
    ∧ (["endmacrX: .data 5\n"] : List String) ≠ [] := by
  exact ⟨by decide, by decide⟩

/-- C9 (amended): an outside line that does not begin with the five characters
`macr ` and does not contain the substring `endmacr` is replaced by the stored
body of the macro named by its first whitespace-delimited token when one is
defined, and is emitted unchanged otherwise; defining `macr M` with body
`inc r0` / `inc r1` and invoking `M` twice yields the body twice — four `inc`
lines. -/
theorem C9_amended :
    (∀ (st : MacrState) (line : String), st.openIdx = none →
      starts_with macr_pat line.toList = false →
      contains_pat endmacr_pat line.toList = false →
      (macr_step st line).2
        = (match lookup_first st.defs (first_word line) with
            | some body => body
            | none => [line]))
    ∧ macr_expand ["macr M\n", "inc r0\n", "inc r1\n", "endmacr\n", "M\n", "M\n"]
        = ["inc r0\n", "inc r1\n", "inc r0\n", "inc r1\n"] := by
  constructor
  · intro st line h1 h2 h3
    simp only [macr_step, h2, h3, h1, Bool.false_eq_true, if_false]
    cases lookup_first st.defs (first_word line) <;> simp
  · decide

/-- C9 (witness): the amended replacement case with macro `M` defined and the
invocation line `M`. -/
theorem C9_amended_witness :
    (macr_step ⟨[("M", ["inc r0\n", "inc r1\n"])], none⟩ "M\n").2
      = ["inc r0\n", "inc r1\n"] := by
  have h := C9_amended.1 ⟨[("M", ["inc r0\n", "inc r1\n"])], none⟩ "M\n" rfl
    (by decide) (by decide)
  simpa using h

/-! Section: Claim C10 -/

/-- C10: `filter_table_by_type` dereferences the table head before any
emptiness check, so on the empty (NULL) table it has no defined result
(modelled `none`), and `write_output_files` reaches it unconditionally for
`EXTERNAL_REFERENCE` and `ENTRY_SYMBOL`; hence writing output with an empty
symbol table — as produced by a successfully assembled source with no labels,
`.extern` or `.entry` — dereferences a null pointer instead of producing empty
`.ext`/`.ent` files, while any non-empty table yields defined results. -/
theorem C10_empty_table_crash :
    filter_table_by_type ([] : table) symbol_type.EXTERNAL_REFERENCE = none
    ∧ filter_table_by_type ([] : table) symbol_type.ENTRY_SYMBOL = none
    ∧ write_output_files_tables [] = none
    ∧ ∀ (e : table_entry) (t : table), (write_output_files_tables (e :: t)).isSome = true := by
  refine ⟨rfl, rfl, rfl, ?_⟩
  intro e t
  simp [write_output_files_tables, filter_table_by_type]

end Assembler
